import Mathlib

/-!
Verification of the viascan scanner (src/viascan.go) against its
natural-language specification.

The Go program is shallowly embedded: network effects (the DNS resolver,
`net.ParseIP`, `http.NewRequest` URL parsing, `client.Do`, `net.Dial`,
`net.SplitHostPort`) are abstracted into an environment `Env` of pure
functions, and the functions of the program (`tri.String`, `site.test`,
the custom `transport.Dial` closure, the input-line splitting of `main`,
and the worker/writer pipeline) are translated definition by definition.
`site.test` additionally returns the list of external events it performs
(resolver lookups and HTTP requests) so that claims of the form "no
network attempt is made" are statable.
-/

/-- Embedding of the Go struct `tri` (viascan.go lines 57-60): a tri-state
where `yesno` is meaningful only when `ran` is true. -/
structure tri where
  ran : Bool
  yesno : Bool
deriving DecidableEq

/-- Embedding of `tri.String` (viascan.go lines 62-75), including the
"should not be reached" fallback branch returning "!". -/
def triString (t : tri) : String :=
  if !t.ran then "-"
  else if t.yesno then "t"
  else if !t.yesno then "f"
  else "!"

/-- Embedding of the Go struct `site` (viascan.go lines 79-95). Body sizes
are Go `int` values produced by `len`, hence non-negative and modelled as
`Nat`. -/
structure site where
  host : String
  origin : String
  resolves : tri
  noVia : tri
  via : tri
  noViaSize : Nat
  viaSize : Nat
  noViaEncoding : String
  viaEncoding : String
  noViaServer : String
  viaServer : String
deriving DecidableEq

/-- Construction of a site by `main` (viascan.go line 296):
`&site{host: parts[0], origin: parts[1]}` — every other field takes its
Go zero value. -/
def mkSite (host origin : String) : site :=
  { host := host, origin := origin,
    resolves := ⟨false, false⟩, noVia := ⟨false, false⟩, via := ⟨false, false⟩,
    noViaSize := 0, viaSize := 0,
    noViaEncoding := "", viaEncoding := "",
    noViaServer := "", viaServer := "" }

/-- Embedding of `strings.Split(text, ",")` on the character list of the
line: split around every comma, keeping empty fields (Go semantics for a
one-character separator). -/
def splitCommaChars : List Char → List (List Char)
  | [] => [[]]
  | c :: rest =>
    if c = ',' then [] :: splitCommaChars rest
    else
      match splitCommaChars rest with
      | [] => [[c]]
      | p :: ps => (c :: p) :: ps

/-- Embedding of `strings.Split(scan.Text(), ",")` (viascan.go line 292)
at the String level. -/
def splitComma (s : String) : List String :=
  (splitCommaChars s.data).map fun cs => String.mk cs

/-- Embedding of an HTTP request as built by `site.test` (viascan.go
lines 153-156, 184): the method, the URL, and the three header entries
the program ever sets (`none` = header absent from the request's header
map); the Host line actually transmitted by the Go transport is not this
map entry but is modelled separately by `wireHost`. -/
structure Request where
  method : String
  url : String
  acceptEncoding : Option String
  host : Option String
  via : Option String
deriving DecidableEq

/-- Embedding of an HTTP response as consumed by `site.test`: the body
bytes read by `ioutil.ReadAll` and the response header entries. -/
structure Response where
  body : List UInt8
  headers : List (String × String)
deriving DecidableEq

/-- Embedding of Go's `resp.Header.Get(key)`: the value of the entry for
the key, or the empty string when the header is absent. -/
def headerGet (hs : List (String × String)) (key : String) : String :=
  match hs.find? (fun p => p.1 == key) with
  | some p => p.2
  | none => ""

/-- External event performed by the program: a resolver lookup
(`resolver.LookupHost`) or an HTTP request issued through `client.Do`. -/
inductive Event where
  | lookup : String → Event
  | httpReq : Request → Event
deriving DecidableEq

/-- Environment abstracting the external libraries called by viascan.go:
`net.ParseIP` (as the Boolean `isIP`), `resolver.LookupHost`,
`http.NewRequest` URL validation (`newRequestOk`), `client.Do`
(`doRequest`), `net.SplitHostPort` and `net.Dial` (as `netDialErr`, the
connection error if any). -/
structure Env where
  isIP : String → Bool
  lookupHost : String → Except String (List String)
  newRequestOk : String → Bool
  doRequest : Request → Except String Response
  splitHostPort : String → Except String (String × String)
  netDialErr : String → String → Option String

/-- Request built by `site.test` at viascan.go lines 153-156: GET of
`http://<origin>` with `Accept-Encoding: gzip,deflate` and the `Host`
header-map entry set to the site's host. -/
def mkRequest (host name : String) : Request :=
  { method := "GET", url := "http://" ++ name,
    acceptEncoding := some "gzip,deflate",
    host := some host,
    via := none }

/-- Modelled from the Go standard library (net/http `Request.write`):
the Host header line sent on the wire is `req.Host` when that field is
set, else the request URL's host, and the `Host` entry of the header
map is listed in `reqWriteExcludeHeader` and never transmitted. viascan
never sets the `Request.Host` field, and every URL it builds is
`http://` followed by the origin with no path or port, so the URL's
host component — hence the transmitted Host header — is the text after
the 7-character scheme prefix. The header-map entry (`Request.host`
here) plays no part. -/
def wireHost (r : Request) : String :=
  String.mk (r.url.data.drop 7)

/-- Embedding of viascan.go lines 115-209: the part of `site.test` after
the name resolved (or was an IP literal). `none` models the panic on the
nil request when `http.NewRequest` fails: that error is discarded at
line 153 and `req.Header.Set` on line 155 dereferences the nil pointer. -/
def afterResolve (env : Env) (s : site) (evs : List Event) : Option (site × List Event) :=
  let name := s.origin
  if env.newRequestOk ("http://" ++ name) then
    let req := mkRequest s.host name
    let s1 := { s with noVia := { s.noVia with ran := true } }
    let evs1 := evs ++ [Event.httpReq req]
    match env.doRequest req with
    | .error _ => some (s1, evs1)
    | .ok respNoVia =>
      let s2 := { s1 with
        noVia := { s1.noVia with yesno := true },
        noViaSize := respNoVia.body.length,
        noViaEncoding := headerGet respNoVia.headers "Content-Encoding",
        noViaServer := headerGet respNoVia.headers "Server" }
      let reqVia := { req with via := some "viascan 1.0" }
      let s3 := { s2 with via := { s2.via with ran := true } }
      let evs2 := evs1 ++ [Event.httpReq reqVia]
      match env.doRequest reqVia with
      | .error _ => some (s3, evs2)
      | .ok respVia =>
        some ({ s3 with
          via := { s3.via with yesno := true },
          viaSize := respVia.body.length,
          viaEncoding := headerGet respVia.headers "Content-Encoding",
          viaServer := headerGet respVia.headers "Server" }, evs2)
  else
    none

/-- Embedding of `site.test` (viascan.go lines 98-209). Returns the
updated site together with the external events performed, or `none` when
the run panics (see `afterResolve`). Resolution: `resolves.ran` is set,
then the resolver is consulted only when the origin is not an IP
literal. -/
def test (env : Env) (s0 : site) : Option (site × List Event) :=
  let s1 := { s0 with resolves := { s0.resolves with ran := true } }
  let name := s1.origin
  if env.isIP name then
    afterResolve env { s1 with resolves := { ran := true, yesno := true } } []
  else
    match env.lookupHost name with
    | .error _ => some ({ s1 with resolves := { ran := true, yesno := false } }, [Event.lookup name])
    | .ok _ => afterResolve env { s1 with resolves := { ran := true, yesno := true } } [Event.lookup name]

/-- Operation `probe` of the spec: `site.test` run on the site as `main`
constructs it from one input line's two fields. -/
def probe (env : Env) (host origin : String) : Option (site × List Event) :=
  test env (mkSite host origin)

/-- HTTP requests among a list of events, in order. -/
def httpReqs (evs : List Event) : List Request :=
  evs.filterMap fun e =>
    match e with
    | .httpReq r => some r
    | .lookup _ => none

/-- Embedding of `net.JoinHostPort`: bracket the host when it contains a
colon. -/
def joinHostPort (host port : String) : String :=
  if host.data.contains ':' then "[" ++ host ++ "]:" ++ port
  else host ++ ":" ++ port

/-- Connection produced by `net.Dial`, identified by the network and the
address actually dialed. -/
def Conn : Type := String × String
deriving instance DecidableEq for Conn

/-- Embedding of `net.Dial(network, address)`: connects to exactly the
given address, failing when the environment says the connection fails. -/
def netDial (env : Env) (network address : String) : Except String Conn :=
  match env.netDialErr network address with
  | some e => .error e
  | none => .ok (network, address)

/-- Embedding of the custom `transport.Dial` closure (viascan.go lines
130-150), paired with the resolver-lookup events it performs: split the
address, dial IP literals directly, otherwise look the host up and dial
the first returned address; an empty result is an error. -/
def transportDial (env : Env) (network address : String) : Except String Conn × List Event :=
  match env.splitHostPort address with
  | .error e => (.error e, [])
  | .ok (host, port) =>
    if env.isIP host then (netDial env network address, [])
    else
      match env.lookupHost host with
      | .error e => (.error e, [Event.lookup host])
      | .ok ips =>
        match ips with
        | [] => (.error ("Failed to get any IPs for " ++ address), [Event.lookup host])
        | ip :: _ => (netDial env network (joinHostPort ip port), [Event.lookup host])

/-- Rendering of one result line by `site.String` (viascan.go lines
224-228). -/
def siteLine (s : site) : String :=
  s.origin ++ "," ++ s.host ++ "," ++ triString s.resolves ++ "," ++
  triString s.noVia ++ "," ++ triString s.via ++ "," ++
  toString s.noViaSize ++ "," ++ toString s.viaSize ++ "," ++
  s.noViaEncoding ++ "," ++ s.viaEncoding ++ "," ++
  s.noViaServer ++ "," ++ s.viaServer

/-- Result used when reasoning about completed pipeline runs: the site as
updated by `site.test`. In a run that reaches a terminal state every
tested site returned `some`, so the `none` fallback is never consulted
there. -/
def testResult (env : Env) (s : site) : site :=
  match test env s with
  | some (r, _) => r
  | none => s

/-- Targets queued by `main` (viascan.go lines 290-298): one per line
splitting into exactly two comma-separated fields. -/
def validTargets (lines : List String) : List site :=
  lines.filterMap fun l =>
    match splitComma l with
    | [h, o] => some (mkSite h o)
    | _ => none

/-- Lines rejected by `main` with a "Bad line" report (viascan.go lines
293-294). -/
def invalidLines (lines : List String) : List String :=
  lines.filter fun l => !((splitComma l).length == 2)

/-- State of the concurrent pipeline of `main`, `worker` and `writer`
(viascan.go lines 232-251 and 279-303): remaining stdin lines, reported
bad lines, contents of the `work` channel, sites currently held by
workers, contents of the `result` channel, and sites already emitted by
the writer. -/
structure PipeState where
  input : List String
  bad : List String
  work : List site
  busy : List site
  resultq : List site
  output : List site
deriving DecidableEq

/-- Small-step semantics of the pipeline, parametrised by the
environment and the worker count `W` (the `-workers` flag). `readBad`
and `readGood` are `main`'s scan loop; `take` is a worker receiving from
`work` (at most `W` sites are held at once); `finish` is a worker
completing `s.test(l)` and sending to `result` — any held site may
finish, modelling arbitrary completion order; `write` is the writer
printing one received result. A worker whose `test` panics (returns
`none`) has no `finish` step: that run is stuck and never terminal. -/
inductive PipeStep (env : Env) (W : Nat) : PipeState → PipeState → Prop
  | readBad (l : String) (rest bad : List String) (work busy resultq output : List site) :
      (splitComma l).length ≠ 2 →
      PipeStep env W ⟨l :: rest, bad, work, busy, resultq, output⟩
                     ⟨rest, bad ++ [l], work, busy, resultq, output⟩
  | readGood (l : String) (rest bad : List String) (work busy resultq output : List site)
      (h o : String) :
      splitComma l = [h, o] →
      PipeStep env W ⟨l :: rest, bad, work, busy, resultq, output⟩
                     ⟨rest, bad, work ++ [mkSite h o], busy, resultq, output⟩
  | take (input bad : List String) (s : site) (work busy resultq output : List site) :
      busy.length < W →
      PipeStep env W ⟨input, bad, s :: work, busy, resultq, output⟩
                     ⟨input, bad, work, busy ++ [s], resultq, output⟩
  | finish (input bad : List String) (work b1 b2 resultq output : List site)
      (s r : site) (evs : List Event) :
      test env s = some (r, evs) →
      PipeStep env W ⟨input, bad, work, b1 ++ s :: b2, resultq, output⟩
                     ⟨input, bad, work, b1 ++ b2, resultq ++ [r], output⟩
  | write (input bad : List String) (work busy : List site) (s : site) (resultq output : List site) :
      PipeStep env W ⟨input, bad, work, busy, s :: resultq, output⟩
                     ⟨input, bad, work, busy, resultq, output ++ [s]⟩

/-- Initial pipeline state: all input pending, every queue empty. -/
def initState (lines : List String) : PipeState :=
  ⟨lines, [], [], [], [], []⟩

/-- Terminal pipeline state: input consumed, channels drained, all
workers idle — the state after `close(work)`, `wg.Wait()`,
`close(result)` and the writer's final drain. -/
def Terminal (st : PipeState) : Prop :=
  st.input = [] ∧ st.work = [] ∧ st.busy = [] ∧ st.resultq = []

/-- Environments under which no `site.test` call panics. -/
def NoPanic (env : Env) : Prop :=
  ∀ h o, (test env (mkSite h o)).isSome

/-- Multiset of results accounted for by a pipeline state: results
already emitted or queued, plus the future results of the sites still in
flight or still to be read from the input. -/
def resultAccount (env : Env) (st : PipeState) : Multiset site :=
  (st.output : Multiset site) + (st.resultq : Multiset site) +
  ((st.busy.map (testResult env) : List site) : Multiset site) +
  ((st.work.map (testResult env) : List site) : Multiset site) +
  (((validTargets st.input).map (testResult env) : List site) : Multiset site)

/-- Concrete environment in which every resolver lookup fails: every
probe short-circuits after the resolution phase. -/
def envResolveFailed : Env :=
  { isIP := fun _ => false,
    lookupHost := fun _ => .error "no such host",
    newRequestOk := fun _ => true,
    doRequest := fun _ => .error "unreachable",
    splitHostPort := fun _ => .error "missing port in address",
    netDialErr := fun _ _ => none }

/-- Concrete environment with two resolvable hosts: `empty.example`
resolves to an empty address set, every other name to two addresses; all
HTTP requests are refused. -/
def envTwoHosts : Env :=
  { isIP := fun _ => false,
    lookupHost := fun h => if h = "empty.example" then .ok [] else .ok ["192.0.2.1", "192.0.2.2"],
    newRequestOk := fun _ => true,
    doRequest := fun _ => .error "connection refused",
    splitHostPort := fun a =>
      if a = "empty.example:80" then .ok ("empty.example", "80")
      else .ok ("multi.example", "80"),
    netDialErr := fun _ _ => none }

/-- Concrete environment in which every request succeeds with a gzip
response of two body bytes. -/
def envAllOk : Env :=
  { isIP := fun _ => false,
    lookupHost := fun _ => .ok ["192.0.2.1"],
    newRequestOk := fun _ => true,
    doRequest := fun _ => .ok
      { body := [31, 139],
        headers := [("Content-Encoding", "gzip"), ("Server", "origin-server")] },
    splitHostPort := fun _ => .ok ("192.0.2.7", "80"),
    netDialErr := fun _ _ => none }

/-- Concrete environment in which every origin string is an IP literal
and every request succeeds with an empty response. -/
def envIPLiteral : Env :=
  { isIP := fun _ => true,
    lookupHost := fun _ => .error "resolver never consulted",
    newRequestOk := fun _ => true,
    doRequest := fun _ => .ok { body := [], headers := [] },
    splitHostPort := fun _ => .ok ("192.0.2.7", "80"),
    netDialErr := fun _ _ => none }

/-- Concrete environment reproducing the nil-request panic: the origin
`1::aaaa` is a valid IPv6 literal (so resolution is skipped), but
`http.NewRequest("GET", "http://1::aaaa", nil)` fails, because the URL
parser reads `:aaaa` as an invalid port; `site.test` discards that error
and dereferences the nil request. -/
def panicEnv : Env :=
  { isIP := fun o => o == "1::aaaa",
    lookupHost := fun _ => .error "no such host",
    newRequestOk := fun _ => false,
    doRequest := fun _ => .error "refused",
    splitHostPort := fun _ => .error "missing port in address",
    netDialErr := fun _ _ => none }

lemma validTargets_cons_good (l : String) (rest : List String) (h o : String)
    (hs : splitComma l = [h, o]) :
    validTargets (l :: rest) = mkSite h o :: validTargets rest := by
  simp [validTargets, hs]

lemma validTargets_cons_bad (l : String) (rest : List String)
    (hs : (splitComma l).length ≠ 2) :
    validTargets (l :: rest) = validTargets rest := by
  unfold validTargets
  rw [List.filterMap_cons]
  rcases h : splitComma l with _ | ⟨a, _ | ⟨b, _ | _⟩⟩ <;> simp_all

lemma invalidLines_cons_good (l : String) (rest : List String) (h o : String)
    (hs : splitComma l = [h, o]) :
    invalidLines (l :: rest) = invalidLines rest := by
  simp [invalidLines, hs]

lemma invalidLines_cons_bad (l : String) (rest : List String)
    (hs : (splitComma l).length ≠ 2) :
    invalidLines (l :: rest) = l :: invalidLines rest := by
  simp [invalidLines, hs]

lemma testResult_eq (env : Env) (s r : site) (evs : List Event)
    (h : test env s = some (r, evs)) : testResult env s = r := by
  simp [testResult, h]

/-- Each pipeline step preserves the accounted multiset of results. -/
lemma pipeStep_resultAccount {env : Env} {W : Nat} {st st' : PipeState}
    (h : PipeStep env W st st') : resultAccount env st' = resultAccount env st := by
  cases h with
  | readBad l rest bad work busy resultq output hbad =>
      simp [resultAccount, validTargets_cons_bad l rest hbad]
  | readGood l rest bad work busy resultq output a b hgood =>
      simp only [resultAccount, validTargets_cons_good l rest a b hgood,
        List.map_append, List.map_cons]
      simp only [List.map_nil, ← Multiset.coe_add, ← Multiset.cons_coe,
        ← Multiset.singleton_add, Multiset.coe_nil]
      abel
  | take input bad s work busy resultq output hlt =>
      simp only [resultAccount, List.map_append, List.map_cons]
      simp only [List.map_nil, ← Multiset.coe_add, ← Multiset.cons_coe,
        ← Multiset.singleton_add, Multiset.coe_nil]
      abel
  | finish input bad work b1 b2 resultq output s r evs htest =>
      simp only [resultAccount, List.map_append, List.map_cons,
        testResult_eq env s r evs htest]
      simp only [List.map_nil, ← Multiset.coe_add, ← Multiset.cons_coe,
        ← Multiset.singleton_add, Multiset.coe_nil]
      abel
  | write input bad work busy s resultq output =>
      simp only [resultAccount]
      simp only [List.map_nil, ← Multiset.coe_add, ← Multiset.cons_coe,
        ← Multiset.singleton_add, Multiset.coe_nil]
      abel

/-- Each pipeline step preserves the reported-plus-pending bad lines, in
order. -/
lemma pipeStep_badAccount {env : Env} {W : Nat} {st st' : PipeState}
    (h : PipeStep env W st st') :
    st'.bad ++ invalidLines st'.input = st.bad ++ invalidLines st.input := by
  cases h with
  | readBad l rest bad work busy resultq output hbad =>
      simp [invalidLines_cons_bad l rest hbad]
  | readGood l rest bad work busy resultq output a b hgood =>
      simp [invalidLines_cons_good l rest a b hgood]
  | take input bad s work busy resultq output hlt => rfl
  | finish input bad work b1 b2 resultq output s r evs htest => rfl
  | write input bad work busy s resultq output => rfl

lemma trace_resultAccount {env : Env} {W : Nat} {st st' : PipeState}
    (h : Relation.ReflTransGen (PipeStep env W) st st') :
    resultAccount env st' = resultAccount env st := by
  induction h with
  | refl => rfl
  | tail _ hstep ih => rw [pipeStep_resultAccount hstep, ih]

lemma trace_badAccount {env : Env} {W : Nat} {st st' : PipeState}
    (h : Relation.ReflTransGen (PipeStep env W) st st') :
    st'.bad ++ invalidLines st'.input = st.bad ++ invalidLines st.input := by
  induction h with
  | refl => rfl
  | tail _ hstep ih => rw [pipeStep_badAccount hstep, ih]

/-- Core accounting for completed runs: in any terminal state reachable
from the initial state, the emitted results are exactly (as a multiset)
the test results of the valid input lines, and the reported bad lines
are exactly the invalid input lines in order. -/
lemma terminal_run_account {env : Env} {W : Nat} {lines : List String} {st : PipeState}
    (htr : Relation.ReflTransGen (PipeStep env W) (initState lines) st)
    (hterm : Terminal st) :
    (st.output : Multiset site) =
      (((validTargets lines).map (testResult env) : List site) : Multiset site) ∧
    st.bad = invalidLines lines := by
  obtain ⟨hi, hw, hb, hr⟩ := hterm
  have h1 := trace_resultAccount htr
  have h2 := trace_badAccount htr
  constructor
  · simpa [resultAccount, initState, hi, hw, hb, hr, validTargets] using h1
  · simpa [initState, hi, invalidLines] using h2

lemma terminal_run_length {env : Env} {W : Nat} {lines : List String} {st : PipeState}
    (htr : Relation.ReflTransGen (PipeStep env W) (initState lines) st)
    (hterm : Terminal st) :
    st.output.length = (validTargets lines).length := by
  have h := (terminal_run_account htr hterm).1
  have := congrArg Multiset.card h
  simpa using this

lemma splitCommaChars_ne_nil (cs : List Char) : splitCommaChars cs ≠ [] := by
  cases cs with
  | nil => simp [splitCommaChars]
  | cons c rest =>
    by_cases hc : c = ','
    · simp [splitCommaChars, hc]
    · simp only [splitCommaChars, if_neg hc]
      rcases splitCommaChars rest with _ | ⟨p, ps⟩ <;> simp

/-- Splitting on commas yields one more field than there are commas: the
exact Go `strings.Split` field count. -/
lemma splitCommaChars_length (cs : List Char) :
    (splitCommaChars cs).length = cs.count ',' + 1 := by
  induction cs with
  | nil => rfl
  | cons c rest ih =>
    by_cases hc : c = ','
    · subst hc
      simp [splitCommaChars, List.count_cons, ih]
    · rcases h : splitCommaChars rest with _ | ⟨p, ps⟩
      · exact absurd h (splitCommaChars_ne_nil rest)
      · rw [h] at ih
        simp only [splitCommaChars, if_neg hc, h, List.length_cons, List.count_cons]
        simp only [List.length_cons] at ih
        simp [hc, ih]

lemma splitComma_length (s : String) :
    (splitComma s).length = s.data.count ',' + 1 := by
  simp [splitComma, splitCommaChars_length]

/-- Behaviour of `afterResolve` when `http.NewRequest` succeeds and the
first (no-Via) request fails: the first attempt is marked attempted and
failed, nothing else changes, and exactly one HTTP request was issued. -/
lemma afterResolve_noVia_failed (env : Env) (s : site) (evs0 : List Event) (e : String)
    (hreq : env.newRequestOk ("http://" ++ s.origin) = true)
    (hdo : env.doRequest (mkRequest s.host s.origin) = .error e) :
    afterResolve env s evs0 =
      some ({ s with noVia := { s.noVia with ran := true } },
            evs0 ++ [Event.httpReq (mkRequest s.host s.origin)]) := by
  simp [afterResolve, hreq, hdo]

/-- Helper shared by several claims: when resolution succeeds, URL
construction succeeds, and the no-Via request fails, the probe returns
with `resolves` succeeded, `noVia` failed, `via` not run, every data
field still at its zero value, and exactly one HTTP request issued. -/
lemma probe_noVia_failed (env : Env) (h o e : String)
    (hres : env.isIP o = true ∨ ∃ ips, env.lookupHost o = .ok ips)
    (hreq : env.newRequestOk ("http://" ++ o) = true)
    (hdo : env.doRequest (mkRequest h o) = .error e) :
    ∃ evs, probe env h o = some
      ({ host := h, origin := o, resolves := ⟨true, true⟩, noVia := ⟨true, false⟩,
         via := ⟨false, false⟩, noViaSize := 0, viaSize := 0, noViaEncoding := "",
         viaEncoding := "", noViaServer := "", viaServer := "" }, evs) ∧
      httpReqs evs = [mkRequest h o] := by
  cases hip : env.isIP o with
  | true =>
    refine ⟨[Event.httpReq (mkRequest h o)], ?_, by simp [httpReqs]⟩
    simp [probe, test, afterResolve, mkSite, hip, hreq, hdo]
  | false =>
    rcases hres with hip2 | ⟨ips, hl⟩
    · simp [hip] at hip2
    · refine ⟨[Event.lookup o, Event.httpReq (mkRequest h o)], ?_, by simp [httpReqs]⟩
      simp [probe, test, afterResolve, mkSite, hip, hl, hreq, hdo]

/-- Structural facts about `afterResolve` needed for the paired-request
and IP-literal claims: it never changes the target identity or the
resolution outcome, and it appends exactly the no-Via request event, or
the no-Via request event followed by the same request with the Via
header added. -/
lemma afterResolve_shape (env : Env) (s : site) (evs0 : List Event) (r : site)
    (evs : List Event) (h : afterResolve env s evs0 = some (r, evs)) :
    r.host = s.host ∧ r.origin = s.origin ∧ r.resolves = s.resolves ∧
    (evs = evs0 ++ [Event.httpReq (mkRequest s.host s.origin)] ∨
     evs = evs0 ++ [Event.httpReq (mkRequest s.host s.origin),
                    Event.httpReq { mkRequest s.host s.origin with via := some "viascan 1.0" }]) := by
  cases hnr : env.newRequestOk ("http://" ++ s.origin) with
  | false => simp [afterResolve, hnr] at h
  | true =>
    simp only [afterResolve, hnr, if_true] at h
    cases hdo1 : env.doRequest (mkRequest s.host s.origin) with
    | error e =>
      rw [hdo1] at h
      simp only [Option.some.injEq, Prod.mk.injEq] at h
      obtain ⟨rfl, rfl⟩ := h
      exact ⟨rfl, rfl, rfl, Or.inl rfl⟩
    | ok resp1 =>
      rw [hdo1] at h
      cases hdo2 : env.doRequest
          { mkRequest s.host s.origin with via := some "viascan 1.0" } with
      | error e =>
        rw [hdo2] at h
        simp only [Option.some.injEq, Prod.mk.injEq] at h
        obtain ⟨rfl, rfl⟩ := h
        exact ⟨rfl, rfl, rfl, Or.inr (by simp)⟩
      | ok resp2 =>
        rw [hdo2] at h
        simp only [Option.some.injEq, Prod.mk.injEq] at h
        obtain ⟨rfl, rfl⟩ := h
        exact ⟨rfl, rfl, rfl, Or.inr (by simp)⟩

/-- Progress: with at least one worker and no panicking target, the
pipeline can always run to completion, reporting each malformed line and
emitting one result per valid line, in a schedule that reads, tests and
writes one line at a time (also realisable with rendezvous channels). -/
lemma drain (env : Env) (W : Nat) (hW : 0 < W) (hp : NoPanic env) :
    ∀ (input bad : List String) (output : List site),
    Relation.ReflTransGen (PipeStep env W)
      ⟨input, bad, [], [], [], output⟩
      ⟨[], bad ++ invalidLines input, [], [], [],
        output ++ (validTargets input).map (testResult env)⟩ := by
  intro input
  induction input with
  | nil =>
    intro bad output
    simpa [invalidLines, validTargets] using
      (Relation.ReflTransGen.refl :
        Relation.ReflTransGen (PipeStep env W) ⟨[], bad, [], [], [], output⟩ _)
  | cons l rest ih =>
    intro bad output
    rcases hsp : splitComma l with _ | ⟨a, _ | ⟨b, _ | ⟨c, t⟩⟩⟩
    · have h2 : (splitComma l).length ≠ 2 := by simp [hsp]
      rw [invalidLines_cons_bad l rest h2, validTargets_cons_bad l rest h2,
        List.append_cons bad l (invalidLines rest)]
      exact Relation.ReflTransGen.head
        (PipeStep.readBad l rest bad [] [] [] output h2) (ih (bad ++ [l]) output)
    · have h2 : (splitComma l).length ≠ 2 := by simp [hsp]
      rw [invalidLines_cons_bad l rest h2, validTargets_cons_bad l rest h2,
        List.append_cons bad l (invalidLines rest)]
      exact Relation.ReflTransGen.head
        (PipeStep.readBad l rest bad [] [] [] output h2) (ih (bad ++ [l]) output)
    · obtain ⟨⟨r, evs⟩, hr⟩ := Option.isSome_iff_exists.mp (hp a b)
      rw [invalidLines_cons_good l rest a b hsp, validTargets_cons_good l rest a b hsp,
        List.map_cons, testResult_eq env (mkSite a b) r evs hr,
        List.append_cons output r ((validTargets rest).map (testResult env))]
      refine Relation.ReflTransGen.head
        (PipeStep.readGood l rest bad [] [] [] output a b hsp) ?_
      refine Relation.ReflTransGen.head
        (PipeStep.take rest bad (mkSite a b) [] [] [] output (by simpa using hW)) ?_
      refine Relation.ReflTransGen.head
        (PipeStep.finish rest bad [] [] [] [] output (mkSite a b) r evs hr) ?_
      refine Relation.ReflTransGen.head
        (PipeStep.write rest bad [] [] r [] output) ?_
      exact ih bad (output ++ [r])
    · have h2 : (splitComma l).length ≠ 2 := by simp [hsp]
      rw [invalidLines_cons_bad l rest h2, validTargets_cons_bad l rest h2,
        List.append_cons bad l (invalidLines rest)]
      exact Relation.ReflTransGen.head
        (PipeStep.readBad l rest bad [] [] [] output h2) (ih (bad ++ [l]) output)

/-- C1: for every ProbeTarget whose origin is not an IP literal and whose
resolution fails, the probe returns a result with `resolves` attempted
and failed, both HTTP outcomes not run, all size fields zero and all
header-string fields empty, and the only external event is the one
resolver lookup — no HTTP attempt is made. -/
theorem c1_resolution_failure_short_circuits (env : Env) (h o e : String)
    (hip : env.isIP o = false) (hl : env.lookupHost o = .error e) :
    probe env h o = some
      ({ host := h, origin := o, resolves := ⟨true, false⟩,
         noVia := ⟨false, false⟩, via := ⟨false, false⟩,
         noViaSize := 0, viaSize := 0, noViaEncoding := "", viaEncoding := "",
         noViaServer := "", viaServer := "" }, [Event.lookup o]) ∧
    httpReqs [Event.lookup o] = [] := by
  constructor
  · simp [probe, test, mkSite, hip, hl]
  · rfl

/-- Witness for C1 at a concrete failing-resolution environment. -/
theorem c1_witness :
    envResolveFailed.isIP "origin.example" = false ∧
    envResolveFailed.lookupHost "origin.example" = .error "no such host" ∧
    probe envResolveFailed "host.example" "origin.example" = some
      ({ host := "host.example", origin := "origin.example",
         resolves := ⟨true, false⟩, noVia := ⟨false, false⟩, via := ⟨false, false⟩,
         noViaSize := 0, viaSize := 0, noViaEncoding := "", viaEncoding := "",
         noViaServer := "", viaServer := "" }, [Event.lookup "origin.example"]) :=
  ⟨rfl, rfl,
    (c1_resolution_failure_short_circuits envResolveFailed
      "host.example" "origin.example" "no such host" rfl rfl).1⟩

/-- C2: for every ProbeTarget whose resolution succeeds but whose no-Via
HTTP attempt fails, the probe returns with `noVia` attempted and failed,
`via` not run, every via-phase size and header field still zero or
empty, and exactly one HTTP request issued — the Via attempt never
happens. -/
theorem c2_noVia_failure_skips_via (env : Env) (h o e : String)
    (hres : env.isIP o = true ∨ ∃ ips, env.lookupHost o = .ok ips)
    (hreq : env.newRequestOk ("http://" ++ o) = true)
    (hdo : env.doRequest (mkRequest h o) = .error e) :
    ∃ evs, probe env h o = some
      ({ host := h, origin := o, resolves := ⟨true, true⟩, noVia := ⟨true, false⟩,
         via := ⟨false, false⟩, noViaSize := 0, viaSize := 0, noViaEncoding := "",
         viaEncoding := "", noViaServer := "", viaServer := "" }, evs) ∧
      httpReqs evs = [mkRequest h o] :=
  probe_noVia_failed env h o e hres hreq hdo

/-- Witness for C2 at a concrete connection-refused environment. -/
theorem c2_witness :
    envTwoHosts.lookupHost "multi.example" = .ok ["192.0.2.1", "192.0.2.2"] ∧
    envTwoHosts.newRequestOk "http://multi.example" = true ∧
    envTwoHosts.doRequest (mkRequest "host.example" "multi.example") =
      .error "connection refused" ∧
    ∃ evs, probe envTwoHosts "host.example" "multi.example" = some
      ({ host := "host.example", origin := "multi.example",
         resolves := ⟨true, true⟩, noVia := ⟨true, false⟩, via := ⟨false, false⟩,
         noViaSize := 0, viaSize := 0, noViaEncoding := "", viaEncoding := "",
         noViaServer := "", viaServer := "" }, evs) ∧
      httpReqs evs = [mkRequest "host.example" "multi.example"] :=
  ⟨by simp [envTwoHosts], rfl, rfl,
    c2_noVia_failure_skips_via envTwoHosts "host.example" "multi.example"
      "connection refused"
      (Or.inr ⟨["192.0.2.1", "192.0.2.2"], by simp [envTwoHosts]⟩) rfl rfl⟩

/-- C3 (refuting evaluation): the probe does not always return a result.
When the origin is an IP literal whose textual form `http.NewRequest`
rejects — such as the valid IPv6 literal `1::aaaa`, whose URL
`http://1::aaaa` has the invalid port `:aaaa` — the ignored
`http.NewRequest` error leaves `req` nil and `req.Header.Set` panics,
modelled here as `probe` returning `none`. -/
theorem c3_probe_can_panic :
    panicEnv.isIP "1::aaaa" = true ∧
    panicEnv.newRequestOk "http://1::aaaa" = false ∧
    probe panicEnv "example.com" "1::aaaa" = none := by
  refine ⟨rfl, rfl, ?_⟩
  simp [probe, test, afterResolve, mkSite, panicEnv]

/-- C9: `tri.String` maps the three tri-states onto exactly the three
distinct single characters `-` (not attempted), `t` (attempted and
succeeded) and `f` (attempted and failed), and the fallback `!` branch
is unreachable. -/
theorem c9_triString_three_values :
    (∀ t : tri, triString t = "-" ∨ triString t = "t" ∨ triString t = "f") ∧
    triString ⟨false, false⟩ = "-" ∧ triString ⟨false, true⟩ = "-" ∧
    triString ⟨true, true⟩ = "t" ∧ triString ⟨true, false⟩ = "f" ∧
    (∀ t : tri, triString t ≠ "!") ∧
    ("-" : String) ≠ "t" ∧ ("-" : String) ≠ "f" ∧ ("t" : String) ≠ "f" := by
  refine ⟨fun t => ?_, rfl, rfl, rfl, rfl, fun t => ?_, by decide, by decide, by decide⟩
  · rcases t with ⟨r, y⟩
    cases r <;> cases y <;> simp [triString]
  · rcases t with ⟨r, y⟩
    cases r <;> cases y <;> simp [triString]

lemma wireHost_mkRequest (h o : String) : wireHost (mkRequest h o) = o := by
  show String.mk (("http://" ++ o).data.drop 7) = o
  have h1 : ("http://" ++ o).data = "http://".data ++ o.data := rfl
  have h2 : (7 : Nat) = "http://".data.length := rfl
  rw [h1, h2, List.drop_left]

/-- C4 (refuting evaluation): the probe's two requests are identical
except for the Via header and both carry the header-map entry
`Host: <hostHeader>` (viascan.go line 156), but the Host header
actually transmitted is the origin, never the hostHeader: the program
never sets the Go `Request.Host` field, and the transport excludes the
header map's `Host` entry from the wire, sending the URL's host â the
origin â instead (see `wireHost`). At the doc comment's own example
target (hostHeader `www.cloudflare.com`, origin `cloudflare.com`), both
issued requests go out with wire Host `cloudflare.com`, although their
header-map entry says `www.cloudflare.com`. -/
theorem c4_wire_host_is_origin_not_hostHeader :
    (∀ h o : String, wireHost (mkRequest h o) = o ∧
      wireHost { mkRequest h o with via := some "viascan 1.0" } = o) ∧
    probe envAllOk "www.cloudflare.com" "cloudflare.com" = some
      ({ host := "www.cloudflare.com", origin := "cloudflare.com",
         resolves := ⟨true, true⟩, noVia := ⟨true, true⟩, via := ⟨true, true⟩,
         noViaSize := 2, viaSize := 2, noViaEncoding := "gzip", viaEncoding := "gzip",
         noViaServer := "origin-server", viaServer := "origin-server" },
       [Event.lookup "cloudflare.com",
        Event.httpReq (mkRequest "www.cloudflare.com" "cloudflare.com"),
        Event.httpReq
          { mkRequest "www.cloudflare.com" "cloudflare.com" with
            via := some "viascan 1.0" }]) ∧
    (mkRequest "www.cloudflare.com" "cloudflare.com").host = some "www.cloudflare.com" ∧
    ({ mkRequest "www.cloudflare.com" "cloudflare.com" with
       via := some "viascan 1.0" } : Request).host = some "www.cloudflare.com" ∧
    wireHost (mkRequest "www.cloudflare.com" "cloudflare.com") = "cloudflare.com" ∧
    wireHost { mkRequest "www.cloudflare.com" "cloudflare.com" with
               via := some "viascan 1.0" } = "cloudflare.com" ∧
    ("cloudflare.com" : String) ≠ "www.cloudflare.com" := by
  refine ⟨fun h o => ⟨wireHost_mkRequest h o, wireHost_mkRequest h o⟩, ?_,
    rfl, rfl, wireHost_mkRequest "www.cloudflare.com" "cloudflare.com",
    wireHost_mkRequest "www.cloudflare.com" "cloudflare.com", by decide⟩
  simp [probe, test, afterResolve, mkSite, envAllOk, headerGet, mkRequest]

/-- C6: for an IP-literal origin the resolution phase is a no-op that
succeeds without consulting the resolver (no lookup event is ever
performed by the probe), and the custom dialer connects to an IP-literal
address directly, without a resolver lookup. -/
theorem c6_ip_literal_skips_resolver (env : Env) (h o : String)
    (hip : env.isIP o = true) :
    (∀ r evs, probe env h o = some (r, evs) →
      r.resolves = ⟨true, true⟩ ∧ ∀ n, Event.lookup n ∉ evs) ∧
    (∀ network address port, env.splitHostPort address = .ok (o, port) →
      transportDial env network address = (netDial env network address, [])) := by
  constructor
  · intro r evs hp
    simp only [probe, test, mkSite, hip, if_true] at hp
    obtain ⟨hh, ho, hres, hevs⟩ := afterResolve_shape _ _ _ _ _ hp
    refine ⟨by simpa using hres, ?_⟩
    intro n
    rcases hevs with hevs | hevs <;> rw [hevs] <;> simp
  · intro network address port hsp
    simp [transportDial, hsp, hip]

/-- Witness for C6 at a concrete IP-literal environment. -/
theorem c6_witness :
    envIPLiteral.isIP "192.0.2.7" = true ∧
    ((∀ r evs, probe envIPLiteral "host.example" "192.0.2.7" = some (r, evs) →
       r.resolves = ⟨true, true⟩ ∧ ∀ n, Event.lookup n ∉ evs) ∧
     (∀ network address port,
       envIPLiteral.splitHostPort address = .ok ("192.0.2.7", port) →
       transportDial envIPLiteral network address =
         (netDial envIPLiteral network address, []))) :=
  ⟨rfl, c6_ip_literal_skips_resolver envIPLiteral "host.example" "192.0.2.7" rfl⟩

/-- C7: the dialer's address-selection lookup always connects to the
first address the resolver returned, with no retry across addresses; an
empty address set makes the dial fail with an error; and a failed HTTP
round trip is recorded by the probe as that phase's TriState failure. -/
theorem c7_first_address_no_retry (env : Env) (network address host port : String)
    (hsp : env.splitHostPort address = .ok (host, port))
    (hnip : env.isIP host = false) :
    (∀ ip rest, env.lookupHost host = .ok (ip :: rest) →
      transportDial env network address =
        (netDial env network (joinHostPort ip port), [Event.lookup host])) ∧
    (env.lookupHost host = .ok [] →
      transportDial env network address =
        (.error ("Failed to get any IPs for " ++ address), [Event.lookup host])) ∧
    (∀ h2 o2 e2, (env.isIP o2 = true ∨ ∃ ips, env.lookupHost o2 = .ok ips) →
      env.newRequestOk ("http://" ++ o2) = true →
      env.doRequest (mkRequest h2 o2) = .error e2 →
      ∃ evs r, probe env h2 o2 = some (r, evs) ∧
        r.noVia = ⟨true, false⟩ ∧ r.via = ⟨false, false⟩) := by
  refine ⟨?_, ?_, ?_⟩
  · intro ip rest hl
    simp [transportDial, hsp, hnip, hl]
  · intro hl
    simp [transportDial, hsp, hnip, hl]
  · intro h2 o2 e2 hres hreq hdo
    obtain ⟨evs, hpe, _⟩ := probe_noVia_failed env h2 o2 e2 hres hreq hdo
    exact ⟨evs, _, hpe, rfl, rfl⟩

/-- Witness for C7: with two addresses returned the dial uses the first;
with none it fails; with a refused connection the probe marks the no-Via
phase failed. -/
theorem c7_witness :
    transportDial envTwoHosts "tcp" "multi.example:80" =
      (.ok ("tcp", "192.0.2.1:80"), [Event.lookup "multi.example"]) ∧
    transportDial envTwoHosts "tcp" "empty.example:80" =
      (.error "Failed to get any IPs for empty.example:80", [Event.lookup "empty.example"]) ∧
    (∃ evs r, probe envTwoHosts "host.example" "multi.example" = some (r, evs) ∧
      r.noVia = ⟨true, false⟩ ∧ r.via = ⟨false, false⟩) := by
  refine ⟨?_, ?_, ?_⟩
  · exact ((c7_first_address_no_retry envTwoHosts "tcp" "multi.example:80"
      "multi.example" "80" (by simp [envTwoHosts]) rfl).1 "192.0.2.1" ["192.0.2.2"]
      (by simp [envTwoHosts])).trans rfl
  · exact ((c7_first_address_no_retry envTwoHosts "tcp" "empty.example:80"
      "empty.example" "80" (by simp [envTwoHosts]) rfl).2.1
      (by simp [envTwoHosts])).trans rfl
  · exact (c7_first_address_no_retry envTwoHosts "tcp" "multi.example:80"
      "multi.example" "80" (by simp [envTwoHosts]) rfl).2.2 "host.example"
      "multi.example" "connection refused"
      (Or.inr ⟨["192.0.2.1", "192.0.2.2"], by simp [envTwoHosts]⟩) rfl rfl

lemma noPanic_envResolveFailed : NoPanic envResolveFailed := fun _ _ => rfl

/-- C5: for any worker count of at least one and any completion order
(any terminal trace of the pipeline step relation), the emitted results
are exactly one per line splitting into two comma-separated fields —
equal as a multiset to the probe results of the valid lines — and with
no panicking target a completed run exists. -/
theorem c5_exactly_one_output_per_valid_line (env : Env) (W : Nat)
    (lines : List String) (hW : 1 ≤ W) :
    (∀ st, Relation.ReflTransGen (PipeStep env W) (initState lines) st → Terminal st →
      (st.output : Multiset site) =
        (((validTargets lines).map (testResult env) : List site) : Multiset site) ∧
      st.output.length = (validTargets lines).length ∧
      (st.output.map siteLine).length = (validTargets lines).length) ∧
    (NoPanic env →
      ∃ st, Relation.ReflTransGen (PipeStep env W) (initState lines) st ∧ Terminal st) := by
  constructor
  · intro st htr hterm
    refine ⟨(terminal_run_account htr hterm).1, terminal_run_length htr hterm, ?_⟩
    simpa using terminal_run_length htr hterm
  · intro hp
    exact ⟨_, drain env W hW hp lines [] [], rfl, rfl, rfl, rfl⟩

/-- Witness for C5 at one valid line, one worker, and the
failing-resolution environment. -/
theorem c5_witness :
    (1 : Nat) ≤ 1 ∧
    ((∀ st, Relation.ReflTransGen (PipeStep envResolveFailed 1)
        (initState ["host.example,origin.example"]) st → Terminal st →
      (st.output : Multiset site) =
        (((validTargets ["host.example,origin.example"]).map
            (testResult envResolveFailed) : List site) : Multiset site) ∧
      st.output.length = (validTargets ["host.example,origin.example"]).length ∧
      (st.output.map siteLine).length =
        (validTargets ["host.example,origin.example"]).length) ∧
    (NoPanic envResolveFailed →
      ∃ st, Relation.ReflTransGen (PipeStep envResolveFailed 1)
        (initState ["host.example,origin.example"]) st ∧ Terminal st)) :=
  ⟨Nat.le_refl 1,
    c5_exactly_one_output_per_valid_line envResolveFailed 1
      ["host.example,origin.example"] (Nat.le_refl 1)⟩

/-- C8: every input line that does not split into exactly two
comma-separated fields is reported and produces no result, and the run
continues to a terminal state covering all remaining lines. -/
theorem c8_malformed_lines_reported_and_skipped (env : Env) (W : Nat)
    (lines : List String) (hW : 1 ≤ W) (hp : NoPanic env) :
    ∃ st, Relation.ReflTransGen (PipeStep env W) (initState lines) st ∧ Terminal st ∧
      st.bad = invalidLines lines ∧
      st.output = (validTargets lines).map (testResult env) ∧
      ∀ l ∈ lines, (splitComma l).length ≠ 2 → l ∈ st.bad := by
  refine ⟨_, drain env W hW hp lines [] [], ⟨rfl, rfl, rfl, rfl⟩, rfl, rfl, ?_⟩
  intro l hl hbad
  simp [invalidLines, List.mem_filter, hl, hbad]

/-- Witness for C8 at a concrete mixed input of one malformed and one
valid line. -/
theorem c8_witness :
    ∃ st, Relation.ReflTransGen (PipeStep envResolveFailed 1)
        (initState ["not-two-fields", "host.example,origin.example"]) st ∧ Terminal st ∧
      st.bad = invalidLines ["not-two-fields", "host.example,origin.example"] ∧
      st.output = (validTargets ["not-two-fields", "host.example,origin.example"]).map
        (testResult envResolveFailed) ∧
      ∀ l ∈ ["not-two-fields", "host.example,origin.example"],
        (splitComma l).length ≠ 2 → l ∈ st.bad :=
  c8_malformed_lines_reported_and_skipped envResolveFailed 1
    ["not-two-fields", "host.example,origin.example"] (Nat.le_refl 1)
    noPanic_envResolveFailed

/-- C10: a line with exactly one comma always splits into exactly two
fields and is accepted — field contents are never validated — including
the line made of a single comma, whose target has empty hostHeader and
empty origin; any completed run over such a single line emits exactly
one result. -/
theorem c10_one_comma_line_accepted (l : String) (hc : l.data.count ',' = 1) :
    (∃ a b, splitComma l = [a, b] ∧ validTargets [l] = [mkSite a b]) ∧
    splitComma "," = ["", ""] ∧
    validTargets [","] = [mkSite "" ""] ∧
    ∀ (env : Env) (W : Nat) (st : PipeState),
      Relation.ReflTransGen (PipeStep env W) (initState [l]) st → Terminal st →
      st.output.length = 1 := by
  have hlen : (splitComma l).length = 2 := by rw [splitComma_length, hc]
  obtain ⟨a, b, hsp⟩ : ∃ a b, splitComma l = [a, b] := by
    rcases h : splitComma l with _ | ⟨x, _ | ⟨y, _ | ⟨z, t⟩⟩⟩
    · rw [h] at hlen; simp at hlen
    · rw [h] at hlen; simp at hlen
    · exact ⟨x, y, rfl⟩
    · rw [h] at hlen; simp at hlen
  refine ⟨⟨a, b, hsp, by simp [validTargets, hsp]⟩, by decide, by decide, ?_⟩
  intro env W st htr hterm
  rw [terminal_run_length htr hterm]
  simp [validTargets, hsp]

/-- Witness for C10 at the single-comma line itself. -/
theorem c10_witness :
    (",".data.count ',' = 1) ∧
    ((∃ a b, splitComma "," = [a, b] ∧ validTargets [","] = [mkSite a b]) ∧
    splitComma "," = ["", ""] ∧
    validTargets [","] = [mkSite "" ""] ∧
    ∀ (env : Env) (W : Nat) (st : PipeState),
      Relation.ReflTransGen (PipeStep env W) (initState [","]) st → Terminal st →
      st.output.length = 1) :=
  ⟨by decide, c10_one_comma_line_accepted "," (by decide)⟩
